import Mathlib

/-!
Verification development for the Cookie Clicker game engine
(repository jaydenlaunuru/Cookieclicker-periode-1).

The repository carries three variants of the engine: two back to back in
app.js and one annotated listing inside the project README.  JavaScript
numbers are modelled as exact rationals, integer-valued quantities as Nat
or Int, JS Set objects as duplicate-free lists in insertion order, and the
DOM / audio / localStorage side effects (which never feed back into the
game state) are dropped.  Namespace App1 embeds the first app.js variant;
namespace Doc embeds the annotated README variant, the only one with the
theme service and the floored canAfford.
-/

set_option allowUnsafeReducibility true

attribute [semireducible] Rat.mul Rat.add Rat.sub Rat.inv Rat.div Rat.ofScientific

namespace CookieClicker

/-! JS Set model: a list kept duplicate free in insertion order. -/

/-- Membership test of the JS Set, mirroring Set.prototype.has. -/
def jsSetHas : List String → String → Bool
  | [], _ => false
  | y :: ys, x => if y == x then true else jsSetHas ys x

/-- Insertion into the JS Set, mirroring Set.prototype.add: a no-op on a
present element, appended at the end otherwise. -/
def jsSetAdd (s : List String) (x : String) : List String :=
  if jsSetHas s x then s else s ++ [x]

/-- Accumulator loop behind jsSetFrom. -/
def jsSetFromAux : List String → List String → List String
  | acc, [] => acc
  | acc, x :: xs =>
    if jsSetHas acc x then jsSetFromAux acc xs else jsSetFromAux (acc ++ [x]) xs

/-- The JS Set constructor on an array: keeps the first occurrence of each
element, in order. -/
def jsSetFrom (l : List String) : List String := jsSetFromAux [] l

/-! Formatter (identical in all three variants of the source). -/

/-- The fixed unit suffix list of Formatter.formatNumber. -/
def unitsList : List String :=
  ["", "K", "M", "B", "T", "Qa", "Qi", "Sx", "Sp", "Oc", "No", "Dc"]

/-- Left pad a digit string with zeros up to width d. -/
def padZeros (s : String) (d : Nat) : String :=
  String.mk (List.replicate (d - s.length) '0') ++ s

/-- Model of Number.prototype.toFixed on an exact rational: round to d
decimal places (the inputs exercised by the spec are never ties, so the
tie-breaking mode of toFixed is immaterial) and print with exactly d
digits after the point. -/
def jsToFixed (q : ℚ) (d : Nat) : String :=
  let m : ℤ := ⌊q * 10 ^ d + 1 / 2⌋
  if d = 0 then toString m
  else toString (m / (10 ^ d : ℤ)) ++ "." ++ padZeros (toString (m % (10 ^ d : ℤ))) d

/-- Model of Number.prototype.toString for the value < 1000 branch of
formatNumber; every input the claims exercise is an integer, where JS
prints the plain decimal digits. -/
def jsNumToString (q : ℚ) : String :=
  if q.den = 1 then toString q.num
  else toString q.num ++ "/" ++ toString q.den

/-- The while loop of formatNumber: divide by 1000 while n is at least
1000 and the unit index is below units.length - 1.  The loop advances the
index each iteration, so fuel unitsList.length can never be exhausted
before the guard fails; the fuel only makes the recursion structural. -/
def scaleLoop : Nat → ℚ → Nat → ℚ × Nat
  | 0, n, i => (n, i)
  | fuel + 1, n, i =>
    if n ≥ 1000 ∧ i < unitsList.length - 1 then scaleLoop fuel (n / 1000) (i + 1)
    else (n, i)

/-- Formatter.formatNumber from app.js lines 4-16. -/
def formatNumber (value : ℚ) : String :=
  if value < 1000 then jsNumToString value
  else
    let p := scaleLoop unitsList.length value 0
    jsToFixed p.1 (if p.1 ≥ 100 then 0 else if p.1 ≥ 10 then 1 else 2) ++
      (unitsList.getD p.2 "")

/-! Upgrade (identical in all three variants). -/

/-- The Upgrade class: catalog entry of one purchasable production unit. -/
structure Upgrade where
  id : String
  name : String
  description : String
  baseCost : ℚ
  growth : ℚ
  count : Nat
  cps : ℚ
  cpc : ℚ
deriving DecidableEq

/-- Upgrade.getCost: floor of baseCost times growth to the owned count. -/
def Upgrade.getCost (u : Upgrade) : ℤ := ⌊u.baseCost * u.growth ^ u.count⌋

/-- createDefaultUpgrades of the first app.js variant and of the README
variant (which agree on every field). -/
def defaultUpgrades : List Upgrade :=
  [ { id := "cursor", name := "Cursor", description := "+0.1 cps",
      baseCost := 15, growth := 11/10, count := 0, cps := 1/10, cpc := 0 },
    { id := "click", name := "Sterkere klik", description := "+1 cpc",
      baseCost := 50, growth := 11/10, count := 0, cps := 0, cpc := 1 },
    { id := "grandma", name := "Oma", description := "+1 cps",
      baseCost := 100, growth := 6/5, count := 0, cps := 1, cpc := 0 },
    { id := "farm", name := "Boerderij", description := "+8 cps",
      baseCost := 1100, growth := 6/5, count := 0, cps := 8, cpc := 0 },
    { id := "mine", name := "Mijn", description := "+47 cps",
      baseCost := 12000, growth := 13/10, count := 0, cps := 47, cpc := 0 },
    { id := "factory", name := "Fabriek", description := "+260 cps",
      baseCost := 130000, growth := 7/5, count := 0, cps := 260, cpc := 0 } ]

/-- In-place mutation of the upgrade that find? located: bump the count of
the first list entry whose id matches. -/
def incFirst : List Upgrade → String → List Upgrade
  | [], _ => []
  | u :: us, id =>
    if u.id == id then { u with count := u.count + 1 } :: us
    else u :: incFirst us id

/-- In-place mutation performed by load: set the count of the first list
entry whose id matches. -/
def setCountFirst : List Upgrade → String → Nat → List Upgrade
  | [], _, _ => []
  | u :: us, id, c =>
    if u.id == id then { u with count := c } :: us
    else u :: setCountFirst us id c

namespace App1

/-! First app.js variant (lines 1-385): game engine and achievements. -/

/-- One achievement catalog entry; each condition closure in the source is
the threshold test totalCookies at least target. -/
structure AchievementDef where
  id : String
  name : String
  description : String
  target : ℚ
deriving DecidableEq

/-- The achievement catalog of the first app.js variant (lines 330-361). -/
def achievementsCatalog : List AchievementDef :=
  [ { id := "50k", name := "50.000 Cookies!",
      description := "Goed gedaan! Je hebt 50.000 cookies verzameld.", target := 50000 },
    { id := "100k", name := "100.000 Cookies!",
      description := "Gefeliciteerd! Je hebt 100.000 cookies verzameld.", target := 100000 },
    { id := "1m", name := "1 Miljoen Cookies!",
      description := "Wauw! Je hebt 1 miljoen cookies verzameld.", target := 1000000 },
    { id := "5m", name := "5 Miljoen Cookies!",
      description := "Ongelooflijk! Je hebt 5 miljoen cookies verzameld.", target := 5000000 },
    { id := "10m", name := "10 Miljoen Cookies!",
      description := "Legendarisch! Je hebt 10 miljoen cookies verzameld.", target := 10000000 } ]

/-- The for loop of AchievementService.checkAchievements: walk the catalog,
unlock every condition that holds and is not yet unlocked, and report
whether anything new was unlocked. -/
def checkLoop : List AchievementDef → List String → ℚ → List String × Bool
  | [], unlocked, _ => (unlocked, false)
  | a :: rest, unlocked, total =>
    if !jsSetHas unlocked a.id && decide (total ≥ a.target) then
      let r := checkLoop rest (jsSetAdd unlocked a.id) total
      (r.1, true)
    else checkLoop rest unlocked total

/-- AchievementService.checkAchievements (app.js lines 365-377), as a
function of the unlocked set and of the only state field the conditions
read, totalCookies. -/
def checkAchievements (unlocked : List String) (totalCookies : ℚ) : List String × Bool :=
  checkLoop achievementsCatalog unlocked totalCookies

/-- CookieClickerGame of the first app.js variant: GameState fields plus
the fields of the game object that the embedded operations touch.  The
achievement service owns only its unlocked set, inlined here. -/
structure Game where
  cookies : ℚ
  totalCookies : ℚ
  manualClicks : Nat
  lastSavedAt : ℚ
  clickPowerBase : ℚ
  upgrades : List Upgrade
  achUnlocked : List String
deriving DecidableEq

/-- The freshly constructed game: zeros, click power 1, default catalog,
no achievement unlocked. -/
def newGame : Game :=
  { cookies := 0, totalCookies := 0, manualClicks := 0, lastSavedAt := 0,
    clickPowerBase := 1, upgrades := defaultUpgrades, achUnlocked := [] }

/-- The cookiesPerSecond getter: sum of cps times count over the catalog. -/
def cookiesPerSecond (g : Game) : ℚ :=
  g.upgrades.foldl (fun acc u => acc + u.cps * u.count) 0

/-- The cookiesPerClick getter: base click power plus the sum of cpc times
count over the catalog. -/
def cookiesPerClick (g : Game) : ℚ :=
  g.upgrades.foldl (fun acc u => acc + u.cpc * u.count) g.clickPowerBase

/-- addCookies (app.js lines 103-107): grow cookies and totalCookies. -/
def addCookies (g : Game) (amount : ℚ) : Game :=
  { g with cookies := g.cookies + amount, totalCookies := g.totalCookies + amount }

/-- canAfford of app.js (lines 109-111 and 495-497): the raw comparison,
with no flooring. -/
def canAfford (g : Game) (cost : ℚ) : Bool :=
  decide (g.cookies ≥ cost)

/-- buyUpgrade (app.js lines 113-123): find the upgrade, read its cost at
the pre-purchase count, bail out when unknown or unaffordable, otherwise
debit and bump the count of the found entry. -/
def buyUpgrade (g : Game) (id : String) : Game × Bool :=
  match g.upgrades.find? (fun u => u.id == id) with
  | none => (g, false)
  | some upg =>
    let cost := upg.getCost
    if canAfford g (cost : ℚ) then
      ({ g with cookies := g.cookies - (cost : ℚ), upgrades := incFirst g.upgrades id },
        true)
    else (g, false)

/-- click (app.js lines 125-130): add cookiesPerClick and count the click. -/
def click (g : Game) : Game :=
  let amount := cookiesPerClick g
  let g1 := addCookies g amount
  { g1 with manualClicks := g1.manualClicks + 1 }

/-- tick (app.js lines 132-136): add the passive income when positive,
then re-check achievements. -/
def tick (g : Game) (deltaSeconds : ℚ) : Game :=
  let earned := cookiesPerSecond g * deltaSeconds
  let g1 := if earned > 0 then addCookies g earned else g
  { g1 with achUnlocked := (checkAchievements g1.achUnlocked g1.totalCookies).1 }

/-- The engine operations quantified over by the monotonicity claim. -/
inductive Act where
  | click : Act
  | tick : ℚ → Act
  | add : ℚ → Act
deriving DecidableEq

/-- Well-formed call: tick and addCookies receive non-negative arguments. -/
def Act.wf : Act → Bool
  | .click => true
  | .tick d => decide (0 ≤ d)
  | .add a => decide (0 ≤ a)

/-- Dispatch one engine operation. -/
def step (g : Game) : Act → Game
  | .click => click g
  | .tick d => tick g d
  | .add a => addCookies g a

/-- Run a finite call sequence. -/
def run (g : Game) (acts : List Act) : Game := acts.foldl step g

/-- Data-model invariant of the catalog fields read by click and tick:
non-negative click power and non-negative per-unit production, as every
constructed catalog satisfies. -/
def catalogOK (g : Game) : Prop :=
  0 ≤ g.clickPowerBase ∧ ∀ u ∈ g.upgrades, 0 ≤ u.cps ∧ 0 ≤ u.cpc

instance (g : Game) : Decidable (catalogOK g) := by
  unfold catalogOK; infer_instance

end App1

namespace Doc

/-! Annotated README variant: the full engine with theme service, floored
canAfford, and theme-aware persistence. -/

/-- One theme catalog entry of ThemeService. -/
structure ThemeDef where
  id : String
  name : String
  cssClass : String
  unlockAt : ℚ
  price : ℚ
deriving DecidableEq

/-- The theme catalog of ThemeService (README listing). -/
def themesCatalog : List ThemeDef :=
  [ { id := "default", name := "Standaard", cssClass := "", unlockAt := 0, price := 0 },
    { id := "t10k", name := "Ocean (10k)", cssClass := "theme-t10k",
      unlockAt := 10000, price := 2000 },
    { id := "t50k", name := "Rood (50k)", cssClass := "theme-t50k",
      unlockAt := 50000, price := 20000 },
    { id := "t100k", name := "Groen (100k)", cssClass := "theme-t100k",
      unlockAt := 100000, price := 50000 },
    { id := "t200k", name := "Paars (200k)", cssClass := "theme-t200k",
      unlockAt := 200000, price := 100000 },
    { id := "t500k", name := "Goud (500k)", cssClass := "theme-t500k",
      unlockAt := 500000, price := 200000 },
    { id := "t1m", name := "Sky (1M)", cssClass := "theme-t1m",
      unlockAt := 1000000, price := 500000 },
    { id := "t2m", name := "Rose (2M)", cssClass := "theme-t2m",
      unlockAt := 2000000, price := 1000000 },
    { id := "t5m", name := "DeepBlue (5M)", cssClass := "theme-t5m",
      unlockAt := 5000000, price := 3000000 },
    { id := "t10m", name := "Legend (10M)", cssClass := "theme-t10m",
      unlockAt := 10000000, price := 10000000 } ]

/-- Mutable per-player state of ThemeService. -/
structure ThemeState where
  unlocked : List String
  owned : List String
  current : String
deriving DecidableEq

/-- The ThemeService constructor state: only the default theme. -/
def initThemeState : ThemeState :=
  { unlocked := ["default"], owned := ["default"], current := "default" }

/-- Achievement catalog entry of the README variant, carrying a theme
reward; the condition closure is again a totalCookies threshold. -/
structure AchievementDef where
  id : String
  name : String
  description : String
  target : ℚ
  themeId : Option String
deriving DecidableEq

/-- The nine-entry achievement catalog of the README variant. -/
def achievementsCatalog : List AchievementDef :=
  [ { id := "10k", name := "10.000 Cookies", description := "Je hebt 10.000 cookies verzameld.",
      target := 10000, themeId := some "t10k" },
    { id := "50k", name := "50.000 Cookies", description := "Je hebt 50.000 cookies verzameld.",
      target := 50000, themeId := some "t50k" },
    { id := "100k", name := "100.000 Cookies", description := "Je hebt 100.000 cookies verzameld.",
      target := 100000, themeId := some "t100k" },
    { id := "200k", name := "200.000 Cookies", description := "Je hebt 200.000 cookies verzameld.",
      target := 200000, themeId := some "t200k" },
    { id := "500k", name := "500.000 Cookies", description := "Je hebt 500.000 cookies verzameld.",
      target := 500000, themeId := some "t500k" },
    { id := "1m", name := "1.000.000 Cookies", description := "Je hebt 1.000.000 cookies verzameld.",
      target := 1000000, themeId := some "t1m" },
    { id := "2m", name := "2.000.000 Cookies", description := "Je hebt 2.000.000 cookies verzameld.",
      target := 2000000, themeId := some "t2m" },
    { id := "5m", name := "5.000.000 Cookies", description := "Je hebt 5.000.000 cookies verzameld.",
      target := 5000000, themeId := some "t5m" },
    { id := "10m", name := "10.000.000 Cookies", description := "Je hebt 10.000.000 cookies verzameld.",
      target := 10000000, themeId := some "t10m" } ]

/-- CookieClickerGame of the README variant: GameState fields, catalog,
achievement unlocked set and theme service state. -/
structure Game where
  cookies : ℚ
  totalCookies : ℚ
  manualClicks : Nat
  lastSavedAt : ℚ
  clickPowerBase : ℚ
  upgrades : List Upgrade
  achUnlocked : List String
  theme : ThemeState
deriving DecidableEq

/-- The freshly constructed README-variant game. -/
def newGame : Game :=
  { cookies := 0, totalCookies := 0, manualClicks := 0, lastSavedAt := 0,
    clickPowerBase := 1, upgrades := defaultUpgrades, achUnlocked := [],
    theme := initThemeState }

/-- The cookiesPerSecond getter of the README variant. -/
def cookiesPerSecond (g : Game) : ℚ :=
  g.upgrades.foldl (fun acc u => acc + u.cps * u.count) 0

/-- The cookiesPerClick getter of the README variant. -/
def cookiesPerClick (g : Game) : ℚ :=
  g.upgrades.foldl (fun acc u => acc + u.cpc * u.count) g.clickPowerBase

/-- addCookies of the README variant. -/
def addCookies (g : Game) (amount : ℚ) : Game :=
  { g with cookies := g.cookies + amount, totalCookies := g.totalCookies + amount }

/-- canAfford of the README variant (README lines 197-199): the comparison
floors the cookie balance before comparing. -/
def canAfford (g : Game) (cost : ℚ) : Bool :=
  decide ((⌊g.cookies⌋ : ℚ) ≥ cost)

/-- buyUpgrade of the README variant (README lines 202-216); identical to
the app.js one apart from the floored affordability test. -/
def buyUpgrade (g : Game) (id : String) : Game × Bool :=
  match g.upgrades.find? (fun u => u.id == id) with
  | none => (g, false)
  | some upg =>
    let cost := upg.getCost
    if canAfford g (cost : ℚ) then
      ({ g with cookies := g.cookies - (cost : ℚ), upgrades := incFirst g.upgrades id },
        true)
    else (g, false)

/-- click of the README variant. -/
def click (g : Game) : Game :=
  let amount := cookiesPerClick g
  let g1 := addCookies g amount
  { g1 with manualClicks := g1.manualClicks + 1 }

/-- The for loop of the README checkAchievements, which both unlocks
achievements and feeds theme rewards into the theme unlocked set. -/
def achLoop : List AchievementDef → List String → List String → ℚ →
    List String × List String × Bool
  | [], achU, themeU, _ => (achU, themeU, false)
  | a :: rest, achU, themeU, total =>
    if !jsSetHas achU a.id && decide (total ≥ a.target) then
      let themeU1 := match a.themeId with
        | some tid => jsSetAdd themeU tid
        | none => themeU
      let r := achLoop rest (jsSetAdd achU a.id) themeU1 total
      (r.1, r.2.1, true)
    else achLoop rest achU themeU total

/-- AchievementService.checkAchievements of the README variant, applied to
the whole game. -/
def checkAchievements (g : Game) : Game :=
  let r := achLoop achievementsCatalog g.achUnlocked g.theme.unlocked g.totalCookies
  { g with achUnlocked := r.1, theme := { g.theme with unlocked := r.2.1 } }

/-- The for loop of ThemeService.checkUnlocks: reveal every theme whose
threshold totalCookies has reached. -/
def checkUnlocksLoop : List ThemeDef → List String → ℚ → List String
  | [], u, _ => u
  | t :: rest, u, total =>
    if !jsSetHas u t.id && decide (total ≥ t.unlockAt) then
      checkUnlocksLoop rest (jsSetAdd u t.id) total
    else checkUnlocksLoop rest u total

/-- ThemeService.checkUnlocks applied to the whole game. -/
def checkUnlocks (g : Game) : Game :=
  { g with theme :=
      { g.theme with
        unlocked := checkUnlocksLoop themesCatalog g.theme.unlocked g.totalCookies } }

/-- tick of the README variant: passive income, then achievement check,
then theme reveal check. -/
def tick (g : Game) (deltaSeconds : ℚ) : Game :=
  let earned := cookiesPerSecond g * deltaSeconds
  let g1 := if earned > 0 then addCookies g earned else g
  checkUnlocks (checkAchievements g1)

/-- ThemeService.applyTheme: only the state effect; the body-class CSS
swap is a pure DOM effect.  An unknown id or an unowned non-default theme
leaves the state untouched, otherwise current is set. -/
def applyTheme (t : ThemeState) (id : String) : ThemeState :=
  match themesCatalog.find? (fun th => th.id == id) with
  | none => t
  | some th =>
    if th.id != "default" && !jsSetHas t.owned th.id then t
    else { t with current := id }

/-- ThemeService.purchaseTheme.  On success the price is debited, the
theme is owned, and game.save() runs, whose only state effect is the
lastSavedAt stamp, taken here as the parameter now. -/
def purchaseTheme (g : Game) (id : String) (now : ℚ) : Game × Bool :=
  match themesCatalog.find? (fun th => th.id == id) with
  | none => (g, false)
  | some t =>
    if !jsSetHas g.theme.unlocked id then (g, false)
    else if jsSetHas g.theme.owned id then (g, false)
    else if !canAfford g t.price then (g, false)
    else
      ({ g with cookies := g.cookies - t.price,
                theme := { g.theme with owned := jsSetAdd g.theme.owned id },
                lastSavedAt := now }, true)

/-- The persisted GameState fields. -/
structure SavedState where
  cookies : ℚ
  totalCookies : ℚ
  manualClicks : Nat
  lastSavedAt : ℚ
deriving DecidableEq

/-- One persisted upgrade record: Upgrade.toJSON. -/
structure SavedUpgrade where
  id : String
  count : Nat
deriving DecidableEq

/-- The persisted theme section; a none field models a field that is
absent from the snapshot or falsy. -/
structure ThemeSnapshot where
  unlocked : Option (List String)
  owned : Option (List String)
  current : Option String
deriving DecidableEq

/-- The persisted blob written under the cookie-clicker-oop key. -/
structure Snapshot where
  state : SavedState
  upgrades : List SavedUpgrade
  version : Nat
  themes : Option ThemeSnapshot
deriving DecidableEq

/-- save of the README variant.  The data object aliases this.state, and
lastSavedAt is stamped before the blob is serialized, so the snapshot
carries the fresh stamp; now stands for Date.now(). -/
def save (g : Game) (now : ℚ) : Snapshot × Game :=
  let g1 := { g with lastSavedAt := now }
  ({ state := { cookies := g1.cookies, totalCookies := g1.totalCookies,
                manualClicks := g1.manualClicks, lastSavedAt := g1.lastSavedAt },
     upgrades := g.upgrades.map (fun u => { id := u.id, count := u.count }),
     version := 1,
     themes := some { unlocked := some g.theme.unlocked,
                      owned := some g.theme.owned,
                      current := some g.theme.current } },
    g1)

/-- ThemeService.load: each field is replaced only when the snapshot
provides a truthy value; then the current theme is re-applied only when
it is default or owned (the guard runs after current was already
overwritten). -/
def themeLoad (t : ThemeState) (data : Option ThemeSnapshot) : ThemeState :=
  match data with
  | none => t
  | some d =>
    let t1 : ThemeState :=
      { unlocked := match d.unlocked with
          | some l => jsSetFrom l
          | none => t.unlocked,
        owned := match d.owned with
          | some l => jsSetFrom l
          | none => t.owned,
        current := match d.current with
          | some c => if c == "" then t.current else c
          | none => t.current }
    if t1.current != "" && (t1.current == "default" || jsSetHas t1.owned t1.current) then
      applyTheme t1 t1.current
    else t1

/-- load of the README variant: overwrite the state fields, restore the
count of every persisted upgrade whose id the catalog knows, then hand
the theme section to ThemeService.load. -/
def load (g : Game) (data : Option Snapshot) : Game :=
  match data with
  | none => g
  | some d =>
    let g1 := { g with cookies := d.state.cookies, totalCookies := d.state.totalCookies,
                       manualClicks := d.state.manualClicks,
                       lastSavedAt := d.state.lastSavedAt }
    let g2 := { g1 with
      upgrades := d.upgrades.foldl
        (fun us (s : SavedUpgrade) => setCountFirst us s.id s.count) g1.upgrades }
    { g2 with theme := themeLoad g2.theme d.themes }

/-- reset of the README variant, confirmation accepted: fresh state, fresh
catalog, theme service reset (the achievement unlocked set is not
cleared), then an immediate save stamping lastSavedAt. -/
def resetGame (g : Game) (now : ℚ) : Game :=
  let g1 := { g with cookies := 0, totalCookies := 0, manualClicks := 0, lastSavedAt := 0,
                     upgrades := defaultUpgrades, theme := initThemeState }
  (save g1 now).2

/-- The user and host facing operations on the README-variant engine that
mutate game state. -/
inductive DAct where
  | click : DAct
  | tick : ℚ → DAct
  | add : ℚ → DAct
  | buy : String → DAct
  | buyTheme : String → ℚ → DAct
  | applyT : String → DAct
  | doSave : ℚ → DAct
  | reset : ℚ → DAct
deriving DecidableEq

/-- Well-formed call: tick and addCookies receive non-negative arguments. -/
def DAct.wf : DAct → Bool
  | .tick d => decide (0 ≤ d)
  | .add a => decide (0 ≤ a)
  | _ => true

/-- Dispatch one operation of the README-variant engine. -/
def dstep (g : Game) : DAct → Game
  | .click => click g
  | .tick d => tick g d
  | .add a => addCookies g a
  | .buy id => (buyUpgrade g id).1
  | .buyTheme id now => (purchaseTheme g id now).1
  | .applyT id => { g with theme := applyTheme g.theme id }
  | .doSave now => (save g now).2
  | .reset now => resetGame g now

/-- Run a finite call sequence on the README-variant engine. -/
def drun (g : Game) (acts : List DAct) : Game := acts.foldl dstep g

/-- Catalog data-model invariant of the README variant. -/
def catalogOK (g : Game) : Prop :=
  0 ≤ g.clickPowerBase ∧ ∀ u ∈ g.upgrades, 0 ≤ u.cps ∧ 0 ≤ u.cpc

instance (g : Game) : Decidable (catalogOK g) := by
  unfold catalogOK; infer_instance

/-- The theme invariant of the data model: the default theme is unlocked
and owned, and the current theme is owned. -/
def themeInv (t : ThemeState) : Prop :=
  jsSetHas t.unlocked "default" = true ∧ jsSetHas t.owned "default" = true ∧
    jsSetHas t.owned t.current = true

instance (t : ThemeState) : Decidable (themeInv t) := by
  unfold themeInv; infer_instance

/-- Well-formedness of a theme section under which load preserves the
theme invariant: all three fields present, the default theme in both
sets, and a non-empty current that is default or owned. -/
def themeSnapWF (d : ThemeSnapshot) : Prop :=
  ∃ lu lo c, d.unlocked = some lu ∧ d.owned = some lo ∧ d.current = some c ∧
    jsSetHas lu "default" = true ∧ jsSetHas lo "default" = true ∧
    c ≠ "" ∧ (c = "default" ∨ jsSetHas lo c = true)

/-- Well-formedness of a whole snapshot: its theme section, when present,
is well-formed. -/
def snapWF (s : Snapshot) : Prop :=
  match s.themes with
  | none => True
  | some d => themeSnapWF d

/-- Reachable states of the README-variant engine: the fresh game, any
engine operation, and load of a well-formed snapshot. -/
inductive Reach : Game → Prop where
  | init : Reach newGame
  | step (g : Game) (a : DAct) : Reach g → Reach (dstep g a)
  | loadWF (g : Game) (s : Snapshot) : Reach g → snapWF s → Reach (load g (some s))

end Doc

/-! Concrete instances used by counterexamples and witnesses. -/

/-- A fresh first-variant game holding 100 cookies. -/
def gRich : App1.Game := { App1.newGame with cookies := 100 }

/-- A fresh first-variant game holding two and a half cookies. -/
def gHalf : App1.Game := { App1.newGame with cookies := 5/2 }

/-- The first catalog entry, as find? returns it. -/
def cursorDef : Upgrade :=
  { id := "cursor", name := "Cursor", description := "+0.1 cps",
    baseCost := 15, growth := 11/10, count := 0, cps := 1/10, cpc := 0 }

/-- An upgrade with positive base cost and growth above one whose floored
cost curve is not strictly increasing. -/
def unitGrowthUpgrade : Upgrade :=
  { id := "unit", name := "Unit", description := "",
    baseCost := 1, growth := 11/10, count := 0, cps := 0, cpc := 0 }

/-- A mid-session README-variant game state used for the round trip. -/
def gRound : Doc.Game :=
  { cookies := 7/2, totalCookies := 12345, manualClicks := 42, lastSavedAt := 0,
    clickPowerBase := 1, upgrades := incFirst defaultUpgrades "cursor", achUnlocked := ["10k"],
    theme := { unlocked := ["default", "t10k"], owned := ["default", "t10k"],
               current := "t10k" } }

/-- Placeholder upgrade used as the irrelevant getD default in statements
about unchanged list entries. -/
def noUpgrade : Upgrade :=
  { id := "", name := "", description := "",
    baseCost := 0, growth := 0, count := 0, cps := 0, cpc := 0 }

/-- A corrupted snapshot whose theme section drops the default theme and
names an unowned current theme. -/
def badSnapshot : Doc.Snapshot :=
  { state := { cookies := 0, totalCookies := 0, manualClicks := 0, lastSavedAt := 0 },
    upgrades := [], version := 1,
    themes := some { unlocked := some [], owned := some [], current := some "t10k" } }

end CookieClicker

namespace CookieClicker

/-! Helper lemmas on the JS Set model. -/

theorem jsSetHas_iff_mem (l : List String) (x : String) :
    jsSetHas l x = true ↔ x ∈ l := by
  induction l with
  | nil => simp [jsSetHas]
  | cons y ys ih =>
    by_cases h : y = x
    · subst h; simp [jsSetHas]
    · have hb : (y == x) = false := beq_eq_false_iff_ne.mpr h
      have hxy : ¬ (x = y) := fun he => h he.symm
      simp [jsSetHas, hb, ih, hxy]

theorem jsSetHas_add_self (s : List String) (x : String) :
    jsSetHas (jsSetAdd s x) x = true := by
  unfold jsSetAdd
  split
  · assumption
  · rw [jsSetHas_iff_mem]
    exact List.mem_append_right _ (List.mem_singleton_self x)

theorem jsSetHas_add_mono (s : List String) (x y : String)
    (h : jsSetHas s y = true) : jsSetHas (jsSetAdd s x) y = true := by
  unfold jsSetAdd
  split
  · exact h
  · rw [jsSetHas_iff_mem] at h ⊢
    exact List.mem_append_left _ h

theorem jsSetFromAux_of_nodup :
    ∀ (l acc : List String), (acc ++ l).Nodup → jsSetFromAux acc l = acc ++ l
  | [], acc, _ => by simp [jsSetFromAux]
  | x :: xs, acc, h => by
    have hdisj := (List.nodup_append.mp h).2.2
    have hx : x ∉ acc := fun hmem => hdisj hmem (List.mem_cons_self x xs)
    have hhas : jsSetHas acc x = false := by
      rw [Bool.eq_false_iff]
      intro hc
      exact hx ((jsSetHas_iff_mem acc x).mp hc)
    rw [List.append_cons] at h
    simp only [jsSetFromAux, hhas, Bool.false_eq_true, if_false]
    rw [jsSetFromAux_of_nodup xs (acc ++ [x]) h]
    simp

theorem jsSetFrom_of_nodup (l : List String) (h : l.Nodup) : jsSetFrom l = l :=
  jsSetFromAux_of_nodup l [] (by simpa using h)

end CookieClicker

open CookieClicker

/-! Claim C7: idempotence of checkAchievements. -/

theorem app1_checkLoop_mem_mono (cat : List App1.AchievementDef) (u : List String)
    (t : ℚ) (x : String) (h : jsSetHas u x = true) :
    jsSetHas (App1.checkLoop cat u t).1 x = true := by
  induction cat generalizing u with
  | nil => simpa [App1.checkLoop] using h
  | cons a rest ih =>
    simp only [App1.checkLoop]
    split
    · exact ih _ (jsSetHas_add_mono _ _ _ h)
    · exact ih _ h

theorem app1_checkLoop_complete (cat : List App1.AchievementDef) (u : List String)
    (t : ℚ) (a : App1.AchievementDef) (ha : a ∈ cat) (ht : t ≥ a.target) :
    jsSetHas (App1.checkLoop cat u t).1 a.id = true := by
  induction cat generalizing u with
  | nil => cases ha
  | cons b rest ih =>
    rcases List.mem_cons.mp ha with hab | harest
    · subst hab
      simp only [App1.checkLoop]
      split
      · exact app1_checkLoop_mem_mono _ _ _ _ (jsSetHas_add_self u a.id)
      · rename_i hcond
        have hdec : decide (t ≥ a.target) = true := decide_eq_true ht
        have hhas : jsSetHas u a.id = true := by
          by_contra hne
          have hfalse : jsSetHas u a.id = false := Bool.eq_false_iff.mpr hne
          apply hcond
          rw [hfalse, hdec]
          rfl
        exact app1_checkLoop_mem_mono _ _ _ _ hhas
    · simp only [App1.checkLoop]
      split
      · exact ih _ harest
      · exact ih _ harest

theorem app1_checkLoop_stable (cat : List App1.AchievementDef) (u : List String)
    (t : ℚ) (h : ∀ a ∈ cat, t ≥ a.target → jsSetHas u a.id = true) :
    App1.checkLoop cat u t = (u, false) := by
  induction cat with
  | nil => rfl
  | cons a rest ih =>
    have hcond : (!jsSetHas u a.id && decide (t ≥ a.target)) = false := by
      by_cases hta : t ≥ a.target
      · rw [h a (List.mem_cons_self a rest) hta]
        rfl
      · rw [decide_eq_false hta, Bool.and_false]
    simp only [App1.checkLoop, hcond, Bool.false_eq_true, if_false]
    exact ih (fun b hb => h b (List.mem_cons_of_mem a hb))

/-- Claim C7: checkAchievements is idempotent: immediately re-running it
on the unlocked set it produced, with the same totalCookies, unlocks
nothing further and reports that no new unlock occurred. -/
theorem checkAchievements_idempotent (u : List String) (t : ℚ) :
    App1.checkAchievements (App1.checkAchievements u t).1 t =
      ((App1.checkAchievements u t).1, false) := by
  unfold App1.checkAchievements
  exact app1_checkLoop_stable _ _ _
    (fun a ha hta => app1_checkLoop_complete _ u t a ha hta)

/-! Claim C2: canAfford semantics. -/

/-- Claim C2 counterexample: canAfford in app.js does not floor, so with
two and a half cookies and a cost of two and a half the call returns true
although the floored balance, 2, is below the cost. -/
theorem canAfford_floor_counterexample :
    App1.canAfford gHalf (5/2) = true ∧ ¬ ((⌊gHalf.cookies⌋ : ℚ) ≥ (5/2 : ℚ)) := by
  decide

/-- Claim C2 (amended): canAfford in app.js returns true exactly when the
raw cookie balance is at least the cost; for every integer cost, hence
for every cost getCost produces, this agrees with the floored comparison
the claim states, and the annotated README variant floors explicitly. -/
theorem canAfford_semantics :
    (∀ (g : App1.Game) (cost : ℚ), App1.canAfford g cost = decide (g.cookies ≥ cost)) ∧
    (∀ (g : App1.Game) (c : ℤ), App1.canAfford g (c : ℚ) = decide (⌊g.cookies⌋ ≥ c)) ∧
    (∀ (g : Doc.Game) (cost : ℚ), Doc.canAfford g cost = decide ((⌊g.cookies⌋ : ℚ) ≥ cost)) := by
  refine ⟨fun g cost => rfl, fun g c => ?_, fun g cost => rfl⟩
  unfold App1.canAfford
  rw [decide_eq_decide]
  exact ⟨fun h => Int.le_floor.mpr h, fun h => Int.le_floor.mp h⟩

/-! Claim C4: the upgrade cost curve. -/

/-- Claim C4 counterexample: an upgrade with positive base cost 1 and
growth 1.1 prices at 1 both before and after the first purchase, so the
floored cost curve is not strictly increasing in the count. -/
theorem getCost_not_strictly_increasing :
    (0 : ℚ) < unitGrowthUpgrade.baseCost ∧ (1 : ℚ) < unitGrowthUpgrade.growth ∧
    ¬ (({ unitGrowthUpgrade with count := 0 } : Upgrade).getCost <
        ({ unitGrowthUpgrade with count := 1 } : Upgrade).getCost) := by
  decide

/-- Claim C4 (amended): with the count at k the current cost is the floor
of baseCost times growth to the k, and for positive baseCost and growth
above one the cost curve is non-decreasing in k (strictness can fail at a
floor plateau, as the counterexample shows). -/
theorem getCost_formula_and_mono (u : Upgrade) :
    (∀ k : ℕ, ({ u with count := k } : Upgrade).getCost = ⌊u.baseCost * u.growth ^ k⌋) ∧
    (0 < u.baseCost → 1 < u.growth → ∀ k₁ k₂ : ℕ, k₁ ≤ k₂ →
      ({ u with count := k₁ } : Upgrade).getCost ≤
        ({ u with count := k₂ } : Upgrade).getCost) := by
  constructor
  · intro k
    rfl
  · intro hb hg k₁ k₂ hk
    unfold Upgrade.getCost
    apply Int.floor_le_floor
    exact mul_le_mul_of_nonneg_left (pow_le_pow_right₀ (le_of_lt hg) hk) (le_of_lt hb)

/-- Witness for the amended C4 at the counterexample upgrade and counts 0
and 5. -/
theorem getCost_formula_and_mono_witness :
    ({ unitGrowthUpgrade with count := 0 } : Upgrade).getCost ≤
      ({ unitGrowthUpgrade with count := 5 } : Upgrade).getCost :=
  (getCost_formula_and_mono unitGrowthUpgrade).2 (by decide) (by decide) 0 5 (by decide)

/-! Claim C8: the number formatter. -/

/-- Claim C8: formatNumber returns the plain string of a value below 1000
unchanged, and on the specified larger inputs scales through the unit list
and picks 0, 1 or 2 decimals by the magnitude of the scaled value: 999 to
"999", 1500 to "1.50K", 100000 to "100K", 12000000 to "12.0M". -/
theorem formatNumber_spec :
    (∀ n : ℕ, n < 1000 → formatNumber (n : ℚ) = toString n) ∧
    formatNumber 999 = "999" ∧ formatNumber 1500 = "1.50K" ∧
    formatNumber 100000 = "100K" ∧ formatNumber 12000000 = "12.0M" := by
  refine ⟨?_, by decide, by decide, by decide, by decide⟩
  intro n h
  have hlt : (n : ℚ) < 1000 := by exact_mod_cast h
  simp only [formatNumber, if_pos hlt]
  rfl

/-- Witness for the hypothesis-bearing conjunct of C8 at 999. -/
theorem formatNumber_spec_witness :
    (999 : ℕ) < 1000 ∧ formatNumber ((999 : ℕ) : ℚ) = toString (999 : ℕ) :=
  ⟨by decide, formatNumber_spec.1 999 (by decide)⟩

/-! Claim C1: buyUpgrade. -/

theorem app1_incFirst_eq_set (l : List Upgrade) (id : String) (u : Upgrade)
    (h : l.find? (fun v => v.id == id) = some u) :
    ∃ i : Fin l.length, l.get i = u ∧
      incFirst l id = l.set i.val { u with count := u.count + 1 } := by
  induction l with
  | nil => simp at h
  | cons v vs ih =>
    by_cases hv : (v.id == id) = true
    · have hvu : v = u := by
        have h2 : some v = some u := by simpa [List.find?_cons, hv] using h
        exact Option.some.inj h2
      subst hvu
      refine ⟨⟨0, Nat.succ_pos _⟩, rfl, ?_⟩
      simp [incFirst, hv]
    · have h2 : List.find? (fun w => w.id == id) vs = some u := by
        simpa [List.find?_cons, hv] using h
      obtain ⟨i, hget, hset⟩ := ih h2
      refine ⟨i.succ, ?_, ?_⟩
      · simpa using hget
      · simp only [incFirst, hv, Bool.false_eq_true, if_false, Fin.val_succ,
          List.set_cons_succ, hset]

/-- Claim C1: buyUpgrade is a no-op returning false when the id is not in
the catalog or the current cost is unaffordable; otherwise it returns
true, debits cookies by exactly the cost at the pre-purchase count, bumps
that upgrade count by one, and leaves totalCookies, manualClicks and
every other catalog entry unchanged. -/
theorem buyUpgrade_spec (g : App1.Game) (id : String) :
    (g.upgrades.find? (fun v => v.id == id) = none →
      App1.buyUpgrade g id = (g, false)) ∧
    (∀ u, g.upgrades.find? (fun v => v.id == id) = some u →
      (App1.canAfford g (u.getCost : ℚ) = false →
        App1.buyUpgrade g id = (g, false)) ∧
      (App1.canAfford g (u.getCost : ℚ) = true →
        (App1.buyUpgrade g id).2 = true ∧
        (App1.buyUpgrade g id).1.cookies = g.cookies - (u.getCost : ℚ) ∧
        (App1.buyUpgrade g id).1.totalCookies = g.totalCookies ∧
        (App1.buyUpgrade g id).1.manualClicks = g.manualClicks ∧
        ∃ i : Fin g.upgrades.length,
          g.upgrades.get i = u ∧
          (App1.buyUpgrade g id).1.upgrades =
            g.upgrades.set i.val { u with count := u.count + 1 } ∧
          ∀ j : ℕ, j ≠ i.val →
            (App1.buyUpgrade g id).1.upgrades.getD j noUpgrade =
              g.upgrades.getD j noUpgrade)) := by
  constructor
  · intro hnone
    unfold App1.buyUpgrade
    rw [hnone]
  · intro u hfind
    constructor
    · intro hcan
      unfold App1.buyUpgrade
      rw [hfind]
      simp [hcan]
    · intro hcan
      obtain ⟨i, hget, hset⟩ := app1_incFirst_eq_set g.upgrades id u hfind
      have hbuy : App1.buyUpgrade g id =
          ({ g with cookies := g.cookies - (u.getCost : ℚ),
                    upgrades := incFirst g.upgrades id }, true) := by
        unfold App1.buyUpgrade
        rw [hfind]
        simp [hcan]
      refine ⟨by rw [hbuy], by rw [hbuy], by rw [hbuy], by rw [hbuy],
        i, hget, by rw [hbuy]; exact hset, ?_⟩
      intro j hj
      rw [hbuy]
      show (incFirst g.upgrades id).getD j noUpgrade = g.upgrades.getD j noUpgrade
      rw [hset]
      simp [List.getD_eq_getElem?_getD, List.getElem?_set_ne (fun he => hj he.symm)]

/-- Witness for C1: a fresh game holding 100 cookies buys the cursor,
paying its base cost 15. -/
theorem buyUpgrade_spec_witness :
    (App1.buyUpgrade gRich "cursor").2 = true ∧
    (App1.buyUpgrade gRich "cursor").1.cookies =
      gRich.cookies - (cursorDef.getCost : ℚ) ∧
    (App1.buyUpgrade gRich "cursor").1.totalCookies = gRich.totalCookies := by
  have h := ((buyUpgrade_spec gRich "cursor").2 cursorDef (by decide)).2 (by decide)
  exact ⟨h.1, h.2.1, h.2.2.1⟩

/-! Claim C3: totalCookies is monotone. -/

theorem app1_foldl_prod_nonneg (f : Upgrade → ℚ) (l : List Upgrade) (acc : ℚ)
    (hacc : 0 ≤ acc) (hf : ∀ u ∈ l, 0 ≤ f u) :
    0 ≤ l.foldl (fun a u => a + f u * u.count) acc := by
  induction l generalizing acc with
  | nil => simpa using hacc
  | cons u us ih =>
    simp only [List.foldl_cons]
    apply ih
    · have h1 : 0 ≤ f u * u.count :=
        mul_nonneg (hf u (List.mem_cons_self u us)) (Nat.cast_nonneg u.count)
      linarith
    · exact fun v hv => hf v (List.mem_cons_of_mem u hv)

theorem app1_cookiesPerClick_nonneg (g : App1.Game) (h : App1.catalogOK g) :
    0 ≤ App1.cookiesPerClick g :=
  app1_foldl_prod_nonneg (fun u => u.cpc) g.upgrades g.clickPowerBase h.1
    (fun u hu => (h.2 u hu).2)

theorem app1_step_upgrades_eq (g : App1.Game) (a : App1.Act) :
    (App1.step g a).upgrades = g.upgrades := by
  cases a with
  | click => rfl
  | tick d =>
    simp only [App1.step, App1.tick]
    split <;> rfl
  | add x => rfl

theorem app1_step_clickPowerBase_eq (g : App1.Game) (a : App1.Act) :
    (App1.step g a).clickPowerBase = g.clickPowerBase := by
  cases a with
  | click => rfl
  | tick d =>
    simp only [App1.step, App1.tick]
    split <;> rfl
  | add x => rfl

theorem app1_step_catalogOK (g : App1.Game) (a : App1.Act)
    (h : App1.catalogOK g) : App1.catalogOK (App1.step g a) := by
  unfold App1.catalogOK at h ⊢
  rw [app1_step_upgrades_eq, app1_step_clickPowerBase_eq]
  exact h

theorem app1_step_total_mono (g : App1.Game) (a : App1.Act) (hwf : a.wf = true)
    (hcat : App1.catalogOK g) : g.totalCookies ≤ (App1.step g a).totalCookies := by
  cases a with
  | click =>
    have h1 := app1_cookiesPerClick_nonneg g hcat
    show g.totalCookies ≤ g.totalCookies + App1.cookiesPerClick g
    linarith
  | tick d =>
    simp only [App1.step, App1.tick]
    split
    · rename_i hpos
      show g.totalCookies ≤ g.totalCookies + App1.cookiesPerSecond g * d
      linarith
    · simp
  | add x =>
    have h1 : 0 ≤ x := of_decide_eq_true hwf
    show g.totalCookies ≤ g.totalCookies + x
    linarith

/-- Claim C3: across every finite sequence of click, tick with
non-negative delta, and addCookies with non-negative amount, totalCookies
never decreases, for every game state satisfying the catalog data-model
invariant. -/
theorem totalCookies_monotone (g : App1.Game) (acts : List App1.Act)
    (hwf : ∀ a ∈ acts, a.wf = true) (hcat : App1.catalogOK g) :
    g.totalCookies ≤ (App1.run g acts).totalCookies := by
  induction acts generalizing g with
  | nil => simp [App1.run]
  | cons a rest ih =>
    have h1 := app1_step_total_mono g a (hwf a (List.mem_cons_self a rest)) hcat
    have h2 := ih (App1.step g a) (fun b hb => hwf b (List.mem_cons_of_mem a hb))
      (app1_step_catalogOK g a hcat)
    calc g.totalCookies ≤ (App1.step g a).totalCookies := h1
      _ ≤ _ := by simpa [App1.run] using h2

/-- Witness for C3 at the fresh game and a three-call sequence. -/
theorem totalCookies_monotone_witness :
    (∀ a ∈ [App1.Act.click, App1.Act.tick 1, App1.Act.add 5], a.wf = true) ∧
    App1.catalogOK App1.newGame ∧
    App1.newGame.totalCookies ≤
      (App1.run App1.newGame [App1.Act.click, App1.Act.tick 1, App1.Act.add 5]).totalCookies :=
  ⟨by decide, by decide,
    totalCookies_monotone App1.newGame _ (by decide) (by decide)⟩

/-! Claim C9: theme guard failures. -/

theorem doc_find_theme_id (id : String) (th : Doc.ThemeDef)
    (h : Doc.themesCatalog.find? (fun t => t.id == id) = some th) : th.id = id := by
  have hp := List.find?_some h
  exact eq_of_beq hp

/-- Claim C9: purchaseTheme on an id outside the unlocked set fails with
no mutation whatever the funds, and applyTheme on a non-default theme
outside the owned set leaves the theme state, in particular the current
theme, unchanged. -/
theorem theme_guard_failures (g : Doc.Game) (id : String) (now : ℚ) :
    (jsSetHas g.theme.unlocked id = false →
      Doc.purchaseTheme g id now = (g, false)) ∧
    (id ≠ "default" → jsSetHas g.theme.owned id = false →
      Doc.applyTheme g.theme id = g.theme) := by
  constructor
  · intro hun
    unfold Doc.purchaseTheme
    cases hf : Doc.themesCatalog.find? (fun th => th.id == id) with
    | none => rfl
    | some t => simp [hun]
  · intro hdef hown
    unfold Doc.applyTheme
    cases hf : Doc.themesCatalog.find? (fun th => th.id == id) with
    | none => rfl
    | some th =>
      have hid : th.id = id := doc_find_theme_id id th hf
      have h1 : (th.id != "default") = true := by
        rw [hid]
        exact bne_iff_ne.mpr hdef
      have h2 : (!jsSetHas g.theme.owned th.id) = true := by
        rw [hid, hown]
        rfl
      simp [h1, h2]

/-- Witness for C9: the fresh game rejects buying and applying the locked
unowned t10k theme. -/
theorem theme_guard_failures_witness :
    jsSetHas Doc.newGame.theme.unlocked "t10k" = false ∧
    Doc.purchaseTheme Doc.newGame "t10k" 0 = (Doc.newGame, false) ∧
    Doc.applyTheme Doc.newGame.theme "t10k" = Doc.newGame.theme :=
  ⟨by decide, (theme_guard_failures Doc.newGame "t10k" 0).1 (by decide),
    (theme_guard_failures Doc.newGame "t10k" 0).2 (by decide) (by decide)⟩

/-! Claim C5: the save and load round trip. -/

theorem doc_fold_set_skip (saved : List Doc.SavedUpgrade) (u : Upgrade)
    (B : List Upgrade) (h : ∀ s ∈ saved, (u.id == s.id) = false) :
    saved.foldl (fun us s => setCountFirst us s.id s.count) (u :: B) =
      u :: saved.foldl (fun us s => setCountFirst us s.id s.count) B := by
  induction saved generalizing B with
  | nil => rfl
  | cons s rest ih =>
    simp only [List.foldl_cons]
    have hs : setCountFirst (u :: B) s.id s.count = u :: setCountFirst B s.id s.count := by
      simp [setCountFirst, h s (List.mem_cons_self s rest)]
    rw [hs]
    exact ih _ (fun t ht => h t (List.mem_cons_of_mem s ht))

theorem doc_restore_counts (l : List Upgrade)
    (hnodup : (l.map (fun u => u.id)).Nodup) :
    (l.map (fun u => ({ id := u.id, count := u.count } : Doc.SavedUpgrade))).foldl
      (fun us s => setCountFirst us s.id s.count)
      (l.map (fun u => { u with count := 0 })) = l := by
  induction l with
  | nil => rfl
  | cons u us ih =>
    have hnd : u.id ∉ us.map (fun w => w.id) ∧ (us.map (fun w => w.id)).Nodup := by
      rw [List.map_cons] at hnodup
      exact List.nodup_cons.mp hnodup
    simp only [List.map_cons, List.foldl_cons]
    have hhead : setCountFirst
        (({ u with count := 0 } : Upgrade) :: us.map (fun v => { v with count := 0 }))
        u.id u.count = u :: us.map (fun v => { v with count := 0 }) := by
      simp [setCountFirst]
    rw [hhead]
    rw [doc_fold_set_skip _ u _ ?hskip]
    · rw [ih hnd.2]
    case hskip =>
      intro s hs
      obtain ⟨v, hv, rfl⟩ := List.mem_map.mp hs
      apply beq_eq_false_iff_ne.mpr
      intro he
      exact hnd.1 (he ▸ List.mem_map_of_mem (fun w => w.id) hv)

theorem doc_applyTheme_current (t : Doc.ThemeState) :
    Doc.applyTheme t t.current = t := by
  unfold Doc.applyTheme
  cases hf : Doc.themesCatalog.find? (fun th => th.id == t.current) with
  | none => rfl
  | some th =>
    show (if (th.id != "default" && !jsSetHas t.owned th.id) = true then t
        else { t with current := t.current }) = t
    split
    · rfl
    · rfl

theorem doc_themeLoad_full (t0 : Doc.ThemeState) (u o : List String) (c : String)
    (hc : c ≠ "") (hnu : u.Nodup) (hno : o.Nodup) :
    Doc.themeLoad t0 (some { unlocked := some u, owned := some o, current := some c }) =
      { unlocked := u, owned := o, current := c } := by
  have hce : (c == "") = false := beq_eq_false_iff_ne.mpr hc
  unfold Doc.themeLoad
  simp only [hce, Bool.false_eq_true, if_false, jsSetFrom_of_nodup u hnu,
    jsSetFrom_of_nodup o hno]
  split
  · exact doc_applyTheme_current { unlocked := u, owned := o, current := c }
  · rfl

/-- Claim C5: for a reachable game state (default catalog up to counts, a
non-empty current theme id, duplicate-free theme sets), save followed by
load into a freshly constructed engine restores cookies, totalCookies,
manualClicks, every catalog count, and the theme unlocked, owned and
current data. -/
theorem save_load_roundtrip (g : Doc.Game) (now : ℚ)
    (hcat : g.upgrades.map (fun u => { u with count := 0 }) = defaultUpgrades)
    (hcur : g.theme.current ≠ "")
    (hnu : g.theme.unlocked.Nodup) (hno : g.theme.owned.Nodup) :
    (Doc.load Doc.newGame (some (Doc.save g now).1)).cookies = g.cookies ∧
    (Doc.load Doc.newGame (some (Doc.save g now).1)).totalCookies = g.totalCookies ∧
    (Doc.load Doc.newGame (some (Doc.save g now).1)).manualClicks = g.manualClicks ∧
    (Doc.load Doc.newGame (some (Doc.save g now).1)).upgrades = g.upgrades ∧
    (Doc.load Doc.newGame (some (Doc.save g now).1)).theme.unlocked = g.theme.unlocked ∧
    (Doc.load Doc.newGame (some (Doc.save g now).1)).theme.owned = g.theme.owned ∧
    (Doc.load Doc.newGame (some (Doc.save g now).1)).theme.current = g.theme.current := by
  have hids : g.upgrades.map (fun u => u.id) = defaultUpgrades.map (fun u => u.id) := by
    rw [← hcat, List.map_map]
    rfl
  have hnodup : (g.upgrades.map (fun u => u.id)).Nodup := by
    rw [hids]
    decide
  have hups : (Doc.load Doc.newGame (some (Doc.save g now).1)).upgrades = g.upgrades := by
    show (g.upgrades.map fun u => ({ id := u.id, count := u.count } : Doc.SavedUpgrade)).foldl
        (fun us s => setCountFirst us s.id s.count) defaultUpgrades = g.upgrades
    rw [← hcat]
    exact doc_restore_counts g.upgrades hnodup
  have hth : (Doc.load Doc.newGame (some (Doc.save g now).1)).theme =
      { unlocked := g.theme.unlocked, owned := g.theme.owned,
        current := g.theme.current } := by
    show Doc.themeLoad Doc.initThemeState
        (some { unlocked := some g.theme.unlocked, owned := some g.theme.owned,
                current := some g.theme.current }) = _
    exact doc_themeLoad_full _ _ _ _ hcur hnu hno
  exact ⟨rfl, rfl, rfl, hups, by rw [hth], by rw [hth], by rw [hth]⟩

/-- Witness for C5 at a concrete mid-session game state. -/
theorem save_load_roundtrip_witness :
    gRound.upgrades.map (fun u => { u with count := 0 }) = defaultUpgrades ∧
    (Doc.load Doc.newGame (some (Doc.save gRound 99).1)).cookies = gRound.cookies ∧
    (Doc.load Doc.newGame (some (Doc.save gRound 99).1)).upgrades = gRound.upgrades ∧
    (Doc.load Doc.newGame (some (Doc.save gRound 99).1)).theme.current =
      gRound.theme.current := by
  have h := save_load_roundtrip gRound 99 (by decide) (by decide) (by decide) (by decide)
  exact ⟨by decide, h.1, h.2.2.2.1, h.2.2.2.2.2.2⟩

/-! Claim C6: the theme invariant. -/

theorem jsSetFromAux_mem (l : List String) (acc : List String) (y : String) :
    y ∈ jsSetFromAux acc l ↔ (y ∈ acc ∨ y ∈ l) := by
  induction l generalizing acc with
  | nil => simp [jsSetFromAux]
  | cons x xs ih =>
    by_cases hx : jsSetHas acc x = true
    · have hxa : x ∈ acc := (jsSetHas_iff_mem acc x).mp hx
      simp only [jsSetFromAux, hx, if_true]
      rw [ih]
      constructor
      · rintro (h | h)
        · exact Or.inl h
        · exact Or.inr (List.mem_cons_of_mem x h)
      · rintro (h | h)
        · exact Or.inl h
        · rcases List.mem_cons.mp h with rfl | h2
          · exact Or.inl hxa
          · exact Or.inr h2
    · have hx2 : jsSetHas acc x = false := Bool.eq_false_iff.mpr hx
      simp only [jsSetFromAux, hx2, Bool.false_eq_true, if_false]
      rw [ih]
      simp only [List.mem_append, List.mem_singleton, List.mem_cons]
      tauto

theorem jsSetFrom_has (l : List String) (y : String) :
    jsSetHas (jsSetFrom l) y = jsSetHas l y := by
  cases hb : jsSetHas l y with
  | false =>
    apply Bool.eq_false_iff.mpr
    intro hc
    have hmem := (jsSetHas_iff_mem _ _).mp hc
    rcases (jsSetFromAux_mem l [] y).mp hmem with h | h
    · cases h
    · rw [(jsSetHas_iff_mem l y).mpr h] at hb
      cases hb
  | true =>
    exact (jsSetHas_iff_mem _ _).mpr
      ((jsSetFromAux_mem l [] y).mpr (Or.inr ((jsSetHas_iff_mem l y).mp hb)))

theorem doc_achLoop_theme_mono (cat : List Doc.AchievementDef)
    (achU themeU : List String) (t : ℚ) (y : String)
    (h : jsSetHas themeU y = true) :
    jsSetHas (Doc.achLoop cat achU themeU t).2.1 y = true := by
  induction cat generalizing achU themeU with
  | nil => simpa [Doc.achLoop] using h
  | cons a rest ih =>
    simp only [Doc.achLoop]
    split
    · cases hti : a.themeId with
      | none => simpa [hti] using ih (jsSetAdd achU a.id) themeU h
      | some tid =>
        simpa [hti] using
          ih (jsSetAdd achU a.id) (jsSetAdd themeU tid) (jsSetHas_add_mono _ _ _ h)
    · exact ih achU themeU h

theorem doc_checkUnlocksLoop_mono (cat : List Doc.ThemeDef) (u : List String)
    (t : ℚ) (y : String) (h : jsSetHas u y = true) :
    jsSetHas (Doc.checkUnlocksLoop cat u t) y = true := by
  induction cat generalizing u with
  | nil => simpa [Doc.checkUnlocksLoop] using h
  | cons td rest ih =>
    simp only [Doc.checkUnlocksLoop]
    split
    · exact ih _ (jsSetHas_add_mono _ _ _ h)
    · exact ih _ h

theorem doc_buyUpgrade_theme_eq (g : Doc.Game) (id : String) :
    (Doc.buyUpgrade g id).1.theme = g.theme := by
  unfold Doc.buyUpgrade
  cases hf : g.upgrades.find? (fun u => u.id == id) with
  | none => rfl
  | some u =>
    show (if Doc.canAfford g ((u.getCost : ℤ) : ℚ) = true then _ else (g, false)).1.theme
        = g.theme
    split
    · rfl
    · rfl

theorem doc_applyTheme_keeps_inv (t : Doc.ThemeState) (id : String)
    (h : Doc.themeInv t) : Doc.themeInv (Doc.applyTheme t id) := by
  obtain ⟨h1, h2, h3⟩ := h
  unfold Doc.applyTheme
  cases hf : Doc.themesCatalog.find? (fun th => th.id == id) with
  | none => exact ⟨h1, h2, h3⟩
  | some th =>
    have hid : th.id = id := doc_find_theme_id id th hf
    show Doc.themeInv (if (th.id != "default" && !jsSetHas t.owned th.id) = true then t
        else { t with current := id })
    split
    · exact ⟨h1, h2, h3⟩
    · rename_i hcond
      refine ⟨h1, h2, ?_⟩
      show jsSetHas t.owned id = true
      cases hA : (th.id != "default") with
      | false =>
        have hdef : th.id = "default" := by
          by_contra hne
          rw [bne_iff_ne.mpr hne] at hA
          cases hA
        rw [← hid, hdef]
        exact h2
      | true =>
        cases hB : jsSetHas t.owned th.id with
        | false =>
          exact absurd (by rw [hA, hB]; rfl) hcond
        | true =>
          rw [← hid]
          exact hB

theorem doc_purchaseTheme_keeps_inv (g : Doc.Game) (id : String) (now : ℚ)
    (h : Doc.themeInv g.theme) : Doc.themeInv (Doc.purchaseTheme g id now).1.theme := by
  obtain ⟨h1, h2, h3⟩ := h
  unfold Doc.purchaseTheme
  cases hf : Doc.themesCatalog.find? (fun th => th.id == id) with
  | none => exact ⟨h1, h2, h3⟩
  | some t =>
    show Doc.themeInv (if (!jsSetHas g.theme.unlocked id) = true then (g, false)
        else if jsSetHas g.theme.owned id = true then (g, false)
        else if (!Doc.canAfford g t.price) = true then (g, false)
        else _).1.theme
    split
    · exact ⟨h1, h2, h3⟩
    · split
      · exact ⟨h1, h2, h3⟩
      · split
        · exact ⟨h1, h2, h3⟩
        · exact ⟨h1, jsSetHas_add_mono _ _ _ h2, jsSetHas_add_mono _ _ _ h3⟩

theorem doc_dstep_keeps_themeInv (g : Doc.Game) (a : Doc.DAct)
    (h : Doc.themeInv g.theme) : Doc.themeInv (Doc.dstep g a).theme := by
  obtain ⟨h1, h2, h3⟩ := h
  cases a with
  | click => exact ⟨h1, h2, h3⟩
  | tick d =>
    simp only [Doc.dstep, Doc.tick]
    split
    · exact ⟨doc_checkUnlocksLoop_mono _ _ _ _
        (doc_achLoop_theme_mono _ _ _ _ _ h1), h2, h3⟩
    · exact ⟨doc_checkUnlocksLoop_mono _ _ _ _
        (doc_achLoop_theme_mono _ _ _ _ _ h1), h2, h3⟩
  | add x => exact ⟨h1, h2, h3⟩
  | buy id =>
    show Doc.themeInv (Doc.buyUpgrade g id).1.theme
    rw [doc_buyUpgrade_theme_eq]
    exact ⟨h1, h2, h3⟩
  | buyTheme id now => exact doc_purchaseTheme_keeps_inv g id now ⟨h1, h2, h3⟩
  | applyT id => exact doc_applyTheme_keeps_inv g.theme id ⟨h1, h2, h3⟩
  | doSave now => exact ⟨h1, h2, h3⟩
  | reset now => exact (by decide : Doc.themeInv Doc.initThemeState)

theorem doc_load_keeps_themeInv (g : Doc.Game) (s : Doc.Snapshot)
    (hg : Doc.themeInv g.theme) (hs : Doc.snapWF s) :
    Doc.themeInv (Doc.load g (some s)).theme := by
  show Doc.themeInv (Doc.themeLoad g.theme s.themes)
  cases hthemes : s.themes with
  | none => simpa [Doc.themeLoad] using hg
  | some d =>
    unfold Doc.snapWF at hs
    rw [hthemes] at hs
    obtain ⟨lu, lo, c, hu, ho, hc, hw1, hw2, hw3, hw4⟩ := hs
    have hce : (c == "") = false := beq_eq_false_iff_ne.mpr hw3
    have hcur : jsSetHas (jsSetFrom lo) c = true := by
      rcases hw4 with rfl | hmem
      · rw [jsSetFrom_has]
        exact hw2
      · rw [jsSetFrom_has]
        exact hmem
    have ht1 : Doc.themeInv
        { unlocked := jsSetFrom lu, owned := jsSetFrom lo, current := c } := by
      refine ⟨?_, ?_, hcur⟩
      · rw [jsSetFrom_has]
        exact hw1
      · rw [jsSetFrom_has]
        exact hw2
    unfold Doc.themeLoad
    simp only [hu, ho, hc, hce, Bool.false_eq_true, if_false]
    split
    · exact doc_applyTheme_keeps_inv _ _ ht1
    · exact ht1

/-- Claim C6 counterexample: loading a snapshot whose theme section has
empty unlocked and owned arrays and an unowned current id produces a
state where the default theme is in neither set and the current theme is
not owned. -/
theorem themeInvariant_load_counterexample :
    jsSetHas (Doc.load Doc.newGame (some badSnapshot)).theme.unlocked "default" = false ∧
    jsSetHas (Doc.load Doc.newGame (some badSnapshot)).theme.owned "default" = false ∧
    jsSetHas (Doc.load Doc.newGame (some badSnapshot)).theme.owned
      (Doc.load Doc.newGame (some badSnapshot)).theme.current = false := by
  decide

/-- Claim C6 (amended): the default theme is unlocked and owned and the
current theme is owned in every state reachable from the fresh engine by
the engine and theme operations, and load preserves the invariant
whenever the snapshot theme section carries all three fields with the
default theme in both sets and a non-empty current that is default or
owned; an arbitrary snapshot can break all three parts, as the
counterexample shows, because load replaces the sets wholesale and
assigns current before its ownership guard. -/
theorem themeInvariant_reachable (g : Doc.Game) (h : Doc.Reach g) :
    Doc.themeInv g.theme := by
  induction h with
  | init => exact (by decide : Doc.themeInv Doc.newGame.theme)
  | step g a hg ih => exact doc_dstep_keeps_themeInv g a ih
  | loadWF g s hg hs ih => exact doc_load_keeps_themeInv g s ih hs

/-- Witness for the amended C6 after one click on the fresh engine. -/
theorem themeInvariant_reachable_witness :
    Doc.themeInv (Doc.dstep Doc.newGame Doc.DAct.click).theme :=
  themeInvariant_reachable _ (Doc.Reach.step Doc.newGame Doc.DAct.click Doc.Reach.init)

/-! Claim C10: cookies stay non-negative. -/

theorem doc_incFirst_cps_cpc (l : List Upgrade) (id : String)
    (h : ∀ u ∈ l, 0 ≤ u.cps ∧ 0 ≤ u.cpc) :
    ∀ u ∈ incFirst l id, 0 ≤ u.cps ∧ 0 ≤ u.cpc := by
  induction l with
  | nil =>
    intro u hu
    simp [incFirst] at hu
  | cons v vs ih =>
    intro u hu
    by_cases hv : (v.id == id) = true
    · simp only [incFirst, hv, if_true] at hu
      rcases List.mem_cons.mp hu with rfl | h2
      · exact h v (List.mem_cons_self v vs)
      · exact h u (List.mem_cons_of_mem v h2)
    · have hv2 : (v.id == id) = false := Bool.eq_false_iff.mpr hv
      simp only [incFirst, hv2, Bool.false_eq_true, if_false] at hu
      rcases List.mem_cons.mp hu with rfl | h2
      · exact h u (List.mem_cons_self u vs)
      · exact ih (fun w hw => h w (List.mem_cons_of_mem v hw)) u h2

theorem doc_cookiesPerClick_nonneg (g : Doc.Game) (h : Doc.catalogOK g) :
    0 ≤ Doc.cookiesPerClick g :=
  app1_foldl_prod_nonneg (fun u => u.cpc) g.upgrades g.clickPowerBase h.1
    (fun u hu => (h.2 u hu).2)


theorem doc_buyUpgrade_keeps_catalogOK (g : Doc.Game) (id : String)
    (h : Doc.catalogOK g) : Doc.catalogOK (Doc.buyUpgrade g id).1 := by
  obtain ⟨h1, h2⟩ := h
  unfold Doc.buyUpgrade
  cases hf : g.upgrades.find? (fun u => u.id == id) with
  | none => exact ⟨h1, h2⟩
  | some u =>
    show Doc.catalogOK (if Doc.canAfford g ((u.getCost : ℤ) : ℚ) = true then _
        else (g, false)).1
    split
    · exact ⟨h1, doc_incFirst_cps_cpc g.upgrades id h2⟩
    · exact ⟨h1, h2⟩

theorem doc_purchaseTheme_keeps_catalogOK (g : Doc.Game) (id : String) (now : ℚ)
    (h : Doc.catalogOK g) : Doc.catalogOK (Doc.purchaseTheme g id now).1 := by
  obtain ⟨h1, h2⟩ := h
  unfold Doc.purchaseTheme
  cases hf : Doc.themesCatalog.find? (fun th => th.id == id) with
  | none => exact ⟨h1, h2⟩
  | some t =>
    show Doc.catalogOK (if (!jsSetHas g.theme.unlocked id) = true then (g, false)
        else if jsSetHas g.theme.owned id = true then (g, false)
        else if (!Doc.canAfford g t.price) = true then (g, false) else _).1
    split
    · exact ⟨h1, h2⟩
    · split
      · exact ⟨h1, h2⟩
      · split
        · exact ⟨h1, h2⟩
        · exact ⟨h1, h2⟩

theorem doc_dstep_keeps_catalogOK (g : Doc.Game) (a : Doc.DAct)
    (h : Doc.catalogOK g) : Doc.catalogOK (Doc.dstep g a) := by
  cases a with
  | click => exact h
  | tick d =>
    show Doc.catalogOK (Doc.tick g d)
    simp only [Doc.tick]
    split
    · exact h
    · exact h
  | add x => exact h
  | buy id => exact doc_buyUpgrade_keeps_catalogOK g id h
  | buyTheme id now => exact doc_purchaseTheme_keeps_catalogOK g id now h
  | applyT id => exact h
  | doSave now => exact h
  | reset now =>
    refine ⟨h.1, ?_⟩
    intro u hu
    have hdef : ∀ v ∈ defaultUpgrades, 0 ≤ v.cps ∧ 0 ≤ v.cpc := by decide
    exact hdef u hu

theorem doc_buyUpgrade_cookies_nonneg (g : Doc.Game) (id : String)
    (hc : 0 ≤ g.cookies) : 0 ≤ (Doc.buyUpgrade g id).1.cookies := by
  unfold Doc.buyUpgrade
  cases hf : g.upgrades.find? (fun u => u.id == id) with
  | none => exact hc
  | some u =>
    show 0 ≤ (if Doc.canAfford g ((u.getCost : ℤ) : ℚ) = true then _
        else (g, false)).1.cookies
    split
    · rename_i hcan
      have h1 : ((u.getCost : ℤ) : ℚ) ≤ (⌊g.cookies⌋ : ℚ) := of_decide_eq_true hcan
      have h2 : (⌊g.cookies⌋ : ℚ) ≤ g.cookies := Int.floor_le g.cookies
      show 0 ≤ g.cookies - ((u.getCost : ℤ) : ℚ)
      linarith
    · exact hc

theorem doc_purchaseTheme_cookies_nonneg (g : Doc.Game) (id : String) (now : ℚ)
    (hc : 0 ≤ g.cookies) : 0 ≤ (Doc.purchaseTheme g id now).1.cookies := by
  unfold Doc.purchaseTheme
  cases hf : Doc.themesCatalog.find? (fun th => th.id == id) with
  | none => exact hc
  | some t =>
    show 0 ≤ (if (!jsSetHas g.theme.unlocked id) = true then (g, false)
        else if jsSetHas g.theme.owned id = true then (g, false)
        else if (!Doc.canAfford g t.price) = true then (g, false) else _).1.cookies
    split
    · exact hc
    · split
      · exact hc
      · split
        · exact hc
        · rename_i hcan
          have hcan2 : Doc.canAfford g t.price = true := by
            cases hcb : Doc.canAfford g t.price with
            | false => exact absurd (by rw [hcb]; rfl) hcan
            | true => rfl
          have h1 : t.price ≤ (⌊g.cookies⌋ : ℚ) := of_decide_eq_true hcan2
          have h2 : (⌊g.cookies⌋ : ℚ) ≤ g.cookies := Int.floor_le g.cookies
          show 0 ≤ g.cookies - t.price
          linarith

theorem doc_dstep_cookies_nonneg (g : Doc.Game) (a : Doc.DAct)
    (hwf : a.wf = true) (hcat : Doc.catalogOK g) (hc : 0 ≤ g.cookies) :
    0 ≤ (Doc.dstep g a).cookies := by
  cases a with
  | click =>
    have h1 := doc_cookiesPerClick_nonneg g hcat
    show 0 ≤ g.cookies + Doc.cookiesPerClick g
    linarith
  | tick d =>
    show 0 ≤ (Doc.tick g d).cookies
    simp only [Doc.tick]
    split
    · rename_i hpos
      show 0 ≤ g.cookies + Doc.cookiesPerSecond g * d
      linarith
    · exact hc
  | add x =>
    have h1 : 0 ≤ x := of_decide_eq_true hwf
    show 0 ≤ g.cookies + x
    linarith
  | buy id => exact doc_buyUpgrade_cookies_nonneg g id hc
  | buyTheme id now => exact doc_purchaseTheme_cookies_nonneg g id now hc
  | applyT id => exact hc
  | doSave now => exact hc
  | reset now => exact le_refl 0

theorem doc_drun_invariant (acts : List Doc.DAct) (hwf : ∀ a ∈ acts, a.wf = true)
    (g : Doc.Game) (hcat : Doc.catalogOK g) (hc : 0 ≤ g.cookies) :
    Doc.catalogOK (Doc.drun g acts) ∧ 0 ≤ (Doc.drun g acts).cookies := by
  induction acts generalizing g with
  | nil => exact ⟨hcat, hc⟩
  | cons a rest ih =>
    have h1 := doc_dstep_keeps_catalogOK g a hcat
    have h2 := doc_dstep_cookies_nonneg g a (hwf a (List.mem_cons_self a rest)) hcat hc
    have h3 := ih (fun b hb => hwf b (List.mem_cons_of_mem a hb)) (Doc.dstep g a) h1 h2
    simpa [Doc.drun] using h3

/-- Claim C10: from the fresh state, every well-formed sequence of click,
tick, addCookies, buyUpgrade and purchaseTheme calls (and the remaining
engine operations) keeps the cookie balance non-negative, because every
debit is guarded by canAfford on the exact amount debited. -/
theorem cookies_nonneg (acts : List Doc.DAct)
    (hwf : ∀ a ∈ acts, a.wf = true) :
    0 ≤ (Doc.drun Doc.newGame acts).cookies :=
  (doc_drun_invariant acts hwf Doc.newGame (by decide) (by decide)).2

/-- Witness for C10 on a five-call sequence including a purchase of each
kind. -/
theorem cookies_nonneg_witness :
    (∀ a ∈ [Doc.DAct.click, Doc.DAct.add 100, Doc.DAct.buy "cursor",
        Doc.DAct.tick 2, Doc.DAct.buyTheme "t10k" 0], a.wf = true) ∧
    0 ≤ (Doc.drun Doc.newGame [Doc.DAct.click, Doc.DAct.add 100, Doc.DAct.buy "cursor",
        Doc.DAct.tick 2, Doc.DAct.buyTheme "t10k" 0]).cookies :=
  ⟨by decide, cookies_nonneg _ (by decide)⟩
